import Mathlib

/-!
# PixForge: a shallow embedding of the conversion-decision pipeline

This file embeds the core of the PixForge image converter
(`src/utils.rs`, `src/converter.rs`, `src/main.rs`) in Lean 4 and
proves/refutes the frozen claims about it.

Conventions of the embedding:
* Rust `u8`/`u32`/`u64` values are modelled as `Nat`; all the arithmetic
  the claims touch stays far below the machine widths at the witnessed
  inputs, and the structure of each computation mirrors the source.
* Byte buffers are `List Nat` (each entry a byte value).
* File-system paths are modelled as lists of components (`List String`);
  the final component is the file name.
* Fallible/IO-dependent steps of the batch runner (walkdir entries,
  `fs::create_dir_all`, `Path::strip_prefix`, `convert_image`) are
  modelled by explicit outcome flags on an abstract directory entry,
  since they are external capabilities from the spec's point of view.
-/

namespace PixForge

/-! ## utils.rs: extensions and file names -/

/-- Index (from the front) of the last occurrence of `.` in a list of
characters, if any.  Helper for modelling `Path::file_stem` /
`Path::extension`. -/
def lastDotIdx (cs : List Char) : Option Nat :=
  cs.foldl (fun (acc : Option Nat × Nat) c =>
      (if c = '.' then some acc.2 else acc.1, acc.2 + 1)) (none, 0) |>.1

/-- Model of Rust `Path::file_stem` on a single (non-empty, normal) file
name: the portion before the final `.`, except that a leading `.` with no
further `.` keeps the whole name (hidden files). -/
def file_stem (s : String) : String :=
  match lastDotIdx s.toList with
  | none => s
  | some 0 => s
  | some i => String.mk (s.toList.take i)

/-- Model of Rust `Path::extension` on a single file name: the portion
after the final `.`, provided the stem part is non-empty; `none` when the
name has no `.` or only a leading one. -/
def extension? (s : String) : Option String :=
  match lastDotIdx s.toList with
  | none => none
  | some 0 => none
  | some i => some (String.mk (s.toList.drop (i + 1)))

/-- ASCII lowercasing of a string (model of Rust `str::to_lowercase`;
they agree on all ASCII input, which is all that the extension allowlist
and the SVG prefix test can match). -/
def asciiLower (s : String) : String :=
  String.mk (s.toList.map Char.toLower)

/-- `utils::get_extension`: the lowercased extension of the path's file
name, or `""` when there is none.  The path argument is reduced to its
file name, since Rust's `extension` only looks at the final component. -/
def get_extension (fileName : String) : String :=
  match extension? fileName with
  | some e => asciiLower e
  | none => ""

/-- `utils::change_extension`: keep the file stem of the path's final
component and attach the new extension; a path without a usable file
name falls back to `output.<ext>`.  Note the result is a single file
name (a `String`), not a path: any directory components of the input
path are discarded by `file_stem`. -/
def change_extension (path : List String) (newExtension : String) : String :=
  match path.getLast? with
  | some name => file_stem name ++ "." ++ newExtension
  | none => "output." ++ newExtension

/-! ## utils.rs: content sniffing -/

/-- `utils::SUPPORTED_IMAGE_EXTENSIONS`. -/
def SUPPORTED_IMAGE_EXTENSIONS : List String :=
  ["png", "jpeg", "jpg", "gif", "webp", "svg", "ico",
   "bmp", "tiff", "tif", "avif", "heic", "heif"]

/-- `utils::IMAGE_SIGNATURES`: the ordered magic-number table
(signature bytes, format label). -/
def IMAGE_SIGNATURES : List (List Nat × String) :=
  [([0x89, 0x50, 0x4E, 0x47, 0x0D, 0x0A, 0x1A, 0x0A], "png"),
   ([0xFF, 0xD8, 0xFF], "jpeg"),
   ([0x47, 0x49, 0x46, 0x38], "gif"),
   ([0x52, 0x49, 0x46, 0x46], "webp"),
   ([0x00, 0x00, 0x01, 0x00], "ico"),
   ([0x42, 0x4D], "bmp"),
   ([0x49, 0x49, 0x2A, 0x00], "tiff"),
   ([0x4D, 0x4D, 0x00, 0x2A], "tiff")]

/-- The 16-byte read buffer: `let mut buffer = [0u8; 16]` filled by
`file.read` — the first `min (length) 16` bytes of the file, zero-padded
to exactly 16 bytes. -/
def readBuffer (content : List Nat) : List Nat :=
  content.take 16 ++ List.replicate (16 - min content.length 16) 0

/-- Number of bytes `file.read` places in the buffer. -/
def bytesRead (content : List Nat) : Nat := min content.length 16

/-- `utils::validate_webp_signature`: the buffer must hold at least 12
bytes and bytes 8..12 must be ASCII `"WEBP"`. -/
def validate_webp_signature (buffer : List Nat) : Option String :=
  if 12 ≤ buffer.length ∧ (buffer.drop 8).take 4 = [0x57, 0x45, 0x42, 0x50] then
    some "webp"
  else
    none

/-- `utils::validate_gif_signature`: bytes 0..4 = `"GIF8"`, byte 4 ∈
`{'7','9'}`, byte 5 = `'a'`. -/
def validate_gif_signature (buffer : List Nat) : Option String :=
  if 6 ≤ buffer.length ∧ buffer.take 4 = [0x47, 0x49, 0x46, 0x38]
      ∧ (buffer.get? 4 = some 0x37 ∨ buffer.get? 4 = some 0x39)
      ∧ buffer.get? 5 = some 0x61 then
    some "gif"
  else
    none

/-- One step of UTF-8 decoding is done by explicit recursion below;
this is the model of `std::str::from_utf8` returning the decoded code
points (RFC 3629: reject overlong forms, surrogates, values above
`0x10FFFF`). -/
def utf8Decode : List Nat → Option (List Nat)
  | [] => some []
  | b :: rest =>
    if b < 0x80 then
      (utf8Decode rest).map (b :: ·)
    else if b < 0xC0 then
      none
    else if b < 0xE0 then
      match rest with
      | b1 :: r =>
        if 0x80 ≤ b1 ∧ b1 < 0xC0 then
          let cp := (b - 0xC0) * 0x40 + (b1 - 0x80)
          if cp < 0x80 then none else (utf8Decode r).map (cp :: ·)
        else none
      | [] => none
    else if b < 0xF0 then
      match rest with
      | b1 :: b2 :: r =>
        if (0x80 ≤ b1 ∧ b1 < 0xC0) ∧ (0x80 ≤ b2 ∧ b2 < 0xC0) then
          let cp := (b - 0xE0) * 0x1000 + (b1 - 0x80) * 0x40 + (b2 - 0x80)
          if cp < 0x800 ∨ (0xD800 ≤ cp ∧ cp ≤ 0xDFFF) then none
          else (utf8Decode r).map (cp :: ·)
        else none
      | _ => none
    else if b < 0xF8 then
      match rest with
      | b1 :: b2 :: b3 :: r =>
        if (0x80 ≤ b1 ∧ b1 < 0xC0) ∧ (0x80 ≤ b2 ∧ b2 < 0xC0) ∧ (0x80 ≤ b3 ∧ b3 < 0xC0) then
          let cp := (b - 0xF0) * 0x40000 + (b1 - 0x80) * 0x1000
                    + (b2 - 0x80) * 0x40 + (b3 - 0x80)
          if cp < 0x10000 ∨ 0x10FFFF < cp then none
          else (utf8Decode r).map (cp :: ·)
        else none
      | _ => none
    else none

/-- ASCII lowercasing of a code point (model of the per-character effect
of `str::to_lowercase`; agrees with Unicode lowercasing on every code
point that can begin the `<?xml` / `<svg` prefixes tested below). -/
def cpLower (cp : Nat) : Nat :=
  if 0x41 ≤ cp ∧ cp ≤ 0x5A then cp + 0x20 else cp

/-- `utils::is_svg_content`: the lowercased text starts with `<?xml` or
`<svg`. -/
def is_svg_content (cps : List Nat) : Bool :=
  let low := cps.map cpLower
  [0x3C, 0x3F, 0x78, 0x6D, 0x6C].isPrefixOf low
    || [0x3C, 0x73, 0x76, 0x67].isPrefixOf low

/-- The signature-scanning loop of
`utils::detect_image_format_by_content`: the first signature that is a
prefix of the buffer decides the outcome (`some r`), with secondary
validation for webp and gif; `none` means no signature matched and the
SVG fallback runs. -/
def scanSignatures (buffer : List Nat) :
    List (List Nat × String) → Option (Option String)
  | [] => none
  | (sig, fmt) :: rest =>
    if sig.isPrefixOf buffer then
      some (if fmt = "webp" then validate_webp_signature buffer
            else if fmt = "gif" then validate_gif_signature buffer
            else some fmt)
    else scanSignatures buffer rest

/-- `utils::detect_image_format_by_content` on the file's bytes (file
open/read errors are outside the model): fewer than 4 bytes read is an
immediate `none`; otherwise the ordered signature table is scanned, and
failing that the buffer is checked for SVG-looking UTF-8 text. -/
def detect_image_format_by_content (content : List Nat) : Option String :=
  let buffer := readBuffer content
  if bytesRead content < 4 then
    none
  else
    match scanSignatures buffer IMAGE_SIGNATURES with
    | some r => r
    | none =>
      match utf8Decode buffer with
      | some cps => if is_svg_content cps then some "svg" else none
      | none => none

/-- `utils::has_potential_image_extension`: extension (lowercased) in
the allowlist, or no extension at all. -/
def has_potential_image_extension (fileName : String) : Bool :=
  match extension? fileName with
  | some e => SUPPORTED_IMAGE_EXTENSIONS.contains (asciiLower e)
  | none => true

/-- `utils::is_image_file` for a regular file with the given name and
content (the `path.is_file()` test is the `isFile` flag of the batch
model): extension gate, then content confirmation. -/
def is_image_file (fileName : String) (content : List Nat) : Bool :=
  has_potential_image_extension fileName
    && (detect_image_format_by_content content).isSome

/-! ## converter.rs: content classifier -/

/-- `converter::ImageType`. -/
inductive ImageType where
  | SimpleGraphics
  | HorizontalGraphics
  | VerticalPattern
  | SmoothPhoto
  | ComplexGeometry
  | Mixed
deriving DecidableEq, Repr

/-- An RGBA pixel: the four channel values of `image::Rgba<u8>`. -/
structure Rgba where
  r : Nat
  g : Nat
  b : Nat
  a : Nat

/-- The RGBA pixel buffer produced by `img.to_rgba8()`: dimensions plus
a total pixel function (the classifier only reads it through the
bounds-checked accessor below). -/
structure RgbaImage where
  width : Nat
  height : Nat
  px : Nat → Nat → Rgba

/-- `ImageBuffer::get_pixel_checked`. -/
def get_pixel_checked (img : RgbaImage) (x y : Nat) : Option Rgba :=
  if x < img.width ∧ y < img.height then some (img.px x y) else none

/-- `ImageConverter::pixel_difference`: sum over the four channels of
the absolute difference, computed in signed arithmetic as the source
does. -/
def pixel_difference (p1 p2 : Rgba) : Nat :=
  ((p1.r : Int) - p2.r).natAbs + ((p1.g : Int) - p2.g).natAbs
    + ((p1.b : Int) - p2.b).natAbs + ((p1.a : Int) - p2.a).natAbs

/-- Rust `(a..b).step_by(s)` for `1 ≤ s`: the values
`a, a + s, a + 2s, …` below `b`. -/
def stepRange (a b s : Nat) : List Nat :=
  (List.range ((b - a + s - 1) / s)).map (fun i => a + s * i)

/-- `sample_size = (width.min(height) / 4).max(10)`. -/
def sampleSize (img : RgbaImage) : Nat :=
  max (min img.width img.height / 4) 10

/-- The x-axis step of both sampling loops:
`(width as usize / sample_size).max(1)`. -/
def stepX (img : RgbaImage) : Nat :=
  max (img.width / sampleSize img) 1

/-- The y-axis step of both sampling loops:
`(height as usize / sample_size).max(1)`. -/
def stepY (img : RgbaImage) : Nat :=
  max (img.height / sampleSize img) 1

/-- The sampled coordinates of the horizontal-variation loop:
`for y in (0..height).step_by(stepY) { for x in (1..width).step_by(stepX) }`. -/
def horizSamples (img : RgbaImage) : List (Nat × Nat) :=
  (stepRange 0 img.height (stepY img)).flatMap fun y =>
    (stepRange 1 img.width (stepX img)).map fun x => (x, y)

/-- The sampled coordinates of the vertical-variation loop:
`for y in (1..height).step_by(stepY) { for x in (0..width).step_by(stepX) }`. -/
def vertSamples (img : RgbaImage) : List (Nat × Nat) :=
  (stepRange 1 img.height (stepY img)).flatMap fun y =>
    (stepRange 0 img.width (stepX img)).map fun x => (x, y)

/-- The horizontal sampling loop's accumulators
`(horizontal_variation, sample_count)`: each sampled pixel is compared
with its immediate left neighbour when both bounds checks succeed, and
only then is the (single, shared) sample count incremented. -/
def horizData (img : RgbaImage) : Nat × Nat :=
  (horizSamples img).foldl
    (fun acc xy =>
      match get_pixel_checked img xy.1 xy.2,
            get_pixel_checked img (xy.1 - 1) xy.2 with
      | some current, some left => (acc.1 + pixel_difference current left, acc.2 + 1)
      | _, _ => acc)
    (0, 0)

/-- The vertical sampling loop's accumulator `vertical_variation`: each
sampled pixel is compared with the pixel immediately above; note the
loop keeps no sample count of its own. -/
def vertVariation (img : RgbaImage) : Nat :=
  (vertSamples img).foldl
    (fun acc xy =>
      match get_pixel_checked img xy.1 xy.2,
            get_pixel_checked img xy.1 (xy.2 - 1) with
      | some current, some up => acc + pixel_difference current up
      | _, _ => acc)
    0

/-- `ImageConverter::analyze_image_type`: small images short-circuit to
`SimpleGraphics`; otherwise sample both directions, guard against a zero
sample count, and classify the two averages (both divided by the
horizontal loop's `sample_count`) through the ordered rule chain. -/
def analyze_image_type (img : RgbaImage) : ImageType :=
  if img.width ≤ 64 ∧ img.height ≤ 64 then
    ImageType.SimpleGraphics
  else
    let hd := horizData img
    let horizontal_variation := hd.1
    let sample_count := hd.2
    let vertical_variation := vertVariation img
    if sample_count = 0 then
      ImageType.SimpleGraphics
    else
      let avg_horizontal := horizontal_variation / sample_count
      let avg_vertical := vertical_variation / sample_count
      if avg_horizontal < avg_vertical / 2 then
        ImageType.HorizontalGraphics
      else if avg_vertical < avg_horizontal / 2 then
        ImageType.VerticalPattern
      else if avg_horizontal < 10 ∧ avg_vertical < 10 then
        ImageType.SmoothPhoto
      else if 50 < avg_horizontal ∧ 50 < avg_vertical then
        ImageType.Mixed
      else
        ImageType.ComplexGeometry

/-- The classification rule chain of `analyze_image_type`, isolated as a
function of the two averages (the spec's presentation in §4.2). -/
def classifyAverages (avgHorizontal avgVertical : Nat) : ImageType :=
  if avgHorizontal < avgVertical / 2 then
    ImageType.HorizontalGraphics
  else if avgVertical < avgHorizontal / 2 then
    ImageType.VerticalPattern
  else if avgHorizontal < 10 ∧ avgVertical < 10 then
    ImageType.SmoothPhoto
  else if 50 < avgHorizontal ∧ 50 < avgVertical then
    ImageType.Mixed
  else
    ImageType.ComplexGeometry

/-! ## converter.rs: encoding policy pieces -/

/-- `image::codecs::png::CompressionType` (the variants this program
uses). -/
inductive CompressionType where
  | Fast
  | Default
  | Best
deriving DecidableEq, Repr

/-- `ImageConverter::get_png_compression_level`: the quality buckets
`0..=20 → Fast`, `21..=60 → Default`, `61..=80 → Best`, `_ → Best`. -/
def get_png_compression_level (quality : Nat) : CompressionType :=
  if quality ≤ 20 then CompressionType.Fast
  else if quality ≤ 60 then CompressionType.Default
  else if quality ≤ 80 then CompressionType.Best
  else CompressionType.Best

/-- Rounding of a non-negative `f64` by `f64::round` (half away from
zero), modelled exactly on rationals. -/
def roundRat (x : ℚ) : Nat := (⌊x + 1 / 2⌋).toNat

/-- `image`-crate `resize_dimensions(width, height, nwidth, nheight,
fill = false)`, the dimension computation behind `DynamicImage::resize`:
scale by the *smaller* of the two axis ratios (preserving aspect ratio,
fitting within the bounds), round, clamp below by 1, and clamp an
overflowing axis to `u32::MAX`.  The `f64` arithmetic is modelled by
exact rationals; it is exact at every input witnessed below. -/
def resize_dimensions (width height nwidth nheight : Nat) : Nat × Nat :=
  let wratio : ℚ := (nwidth : ℚ) / width
  let hratio : ℚ := (nheight : ℚ) / height
  let ratio := min wratio hratio
  let nw := max (roundRat (width * ratio)) 1
  let nh := max (roundRat (height * ratio)) 1
  if 4294967295 < nw then
    let r : ℚ := 4294967295 / width
    (4294967295, max (roundRat (height * r)) 1)
  else if 4294967295 < nh then
    let r : ℚ := 4294967295 / height
    (max (roundRat (width * r)) 1, 4294967295)
  else
    (nw, nh)

/-- The dimensions `ImageConverter::convert_to_ico` hands to the ICO
encoder: `img.resize(256, 256, Lanczos3)` when either source dimension
exceeds 256, the source dimensions otherwise. -/
def convert_to_ico_dims (width height : Nat) : Nat × Nat :=
  if 256 < width ∨ 256 < height then
    resize_dimensions width height 256 256
  else
    (width, height)

/-! ## converter.rs: the SVG gate of `convert_image` -/

/-- What `ImageConverter::convert_image` does before any decode is
attempted. -/
inductive PreDecodeStep where
  | rejectedSvg
  | proceedsToDecode
deriving DecidableEq, Repr

/-- The pre-decode phase of `ImageConverter::convert_image`: bail out
with the unsupported-conversion error iff the *extension* of the input
path is `svg`; everything else reaches `image::open` (the decode).  The
input's content plays no part in this gate. -/
def convert_image_pre_decode (fileName : String) : PreDecodeStep :=
  if asciiLower (get_extension fileName) = "svg" then
    PreDecodeStep.rejectedSvg
  else
    PreDecodeStep.proceedsToDecode

/-! ## converter.rs: the batch runner -/

/-- `converter::ConversionStats`. -/
structure ConversionStats where
  converted : Nat
  skipped : Nat
deriving DecidableEq, Repr

/-- One directory entry yielded by the `WalkDir` traversal, with the
outcomes of the external (IO-dependent) steps the loop body performs on
it recorded as flags:
* `isFile`/`isImageFile` — the eligibility tests `path.is_file()` and
  `utils::is_image_file(path)`;
* `stripPrefixOk` — whether `path.strip_prefix(input_dir)` succeeds;
* `ensureDirOk` — whether `ensure_output_directory` (the per-file
  `fs::create_dir_all` of the destination's parent) succeeds;
* `convertOk` — whether `convert_image` succeeds. -/
structure DirEntry where
  isFile : Bool
  isImageFile : Bool
  stripPrefixOk : Bool
  ensureDirOk : Bool
  convertOk : Bool
deriving DecidableEq, Repr

/-- The body of the `convert_directory` loop for one (successfully
yielded) entry: non-eligible entries are passed over; then
`strip_prefix` and `ensure_output_directory` failures propagate with
`?`, while `convert_image` is wrapped in a `match` whose arms bump the
counters. -/
def convertDirStep (stats : ConversionStats) (e : DirEntry) :
    Except String ConversionStats :=
  if e.isFile && e.isImageFile then
    if !e.stripPrefixOk then
      Except.error "StripPrefixError"
    else if !e.ensureDirOk then
      Except.error "DirectoryCreationFailed"
    else if e.convertOk then
      Except.ok { stats with converted := stats.converted + 1 }
    else
      Except.ok { stats with skipped := stats.skipped + 1 }
  else
    Except.ok stats

/-- `ImageConverter::convert_directory`: create the output directory
(failure aborts), then walk the entries — `filter_map(Result::ok)`
silently drops traversal errors — threading the stats through the loop
body; the first propagated error aborts the whole batch. -/
def convert_directory (createOutDirOk : Bool)
    (entries : List (Except String DirEntry)) : Except String ConversionStats :=
  if !createOutDirOk then
    Except.error "DirectoryCreationFailed"
  else
    (entries.filterMap fun e => e.toOption).foldlM convertDirStep
      { converted := 0, skipped := 0 }

/-- The destination path `convert_directory` computes for an eligible
file with relative path `relativePath` (components below `input_dir`):
`output_dir.join(utils::change_extension(relative_path, target_format))`.
Since `change_extension` returns a single file name, exactly one
component is appended to `output_dir`. -/
def batch_output_path (outputDir : List String) (relativePath : List String)
    (targetFormat : String) : List String :=
  outputDir ++ [change_extension relativePath targetFormat]

/-- Modelled from the spec (§4.5, claim C2): the destination the spec
prescribes — the relative path mirrored under `output_dir` with only the
extension of the final component replaced, all intermediate directory
components preserved. -/
def spec_mirrored_output_path (outputDir : List String)
    (relativePath : List String) (targetFormat : String) : List String :=
  outputDir ++ relativePath.dropLast
    ++ [(match relativePath.getLast? with
         | some name => file_stem name ++ "." ++ targetFormat
         | none => "output." ++ targetFormat)]

/-! ## Helper lemmas -/

/-- `Char.ofNat` evaluates back to its argument on valid code points. -/
theorem char_toNat_ofNat {m : Nat} (h : m.isValidChar) : (Char.ofNat m).toNat = m := by
  unfold Char.ofNat
  simp only [h, dif_pos]
  unfold Char.ofNatAux Char.toNat
  simp [UInt32.toNat, BitVec.toNat_ofNatLt]

/-- `Char.toLower` is idempotent: lowering an upper-case ASCII letter
lands outside the upper-case range. -/
theorem char_toLower_toLower (c : Char) : c.toLower.toLower = c.toLower := by
  unfold Char.toLower
  by_cases h : c.toNat ≥ 65 ∧ c.toNat ≤ 90
  · have hv : (c.toNat + 32).isValidChar := Or.inl (by omega)
    have ht : (Char.ofNat (c.toNat + 32)).toNat = c.toNat + 32 := char_toNat_ofNat hv
    simp only [if_pos h, ht]
    rw [if_neg (by omega)]
  · simp only [if_neg h]

/-- `asciiLower` is idempotent. -/
theorem asciiLower_idem (s : String) : asciiLower (asciiLower s) = asciiLower s := by
  unfold asciiLower
  have hl : (String.mk (s.toList.map Char.toLower)).toList = s.toList.map Char.toLower := rfl
  rw [hl, List.map_map]
  congr 1
  exact List.map_congr_left fun c _ => char_toLower_toLower c

/-- Every element of `stepRange a b s` (for a positive step) lies in
`[a, b)`. -/
theorem mem_stepRange {a b s y : Nat} (hs : 1 ≤ s) (h : y ∈ stepRange a b s) :
    a ≤ y ∧ y < b := by
  simp only [stepRange, List.mem_map, List.mem_range] at h
  obtain ⟨i, hi, rfl⟩ := h
  have h1 : (i + 1) * s ≤ ((b - a + s - 1) / s) * s := Nat.mul_le_mul_right s hi
  have h2 : ((b - a + s - 1) / s) * s ≤ b - a + s - 1 := Nat.div_mul_le_self _ _
  have h3 : (i + 1) * s = s * i + s := by ring
  generalize hm : s * i = m at *
  omega

/-- `roundRat` is monotone. -/
theorem roundRat_mono {x y : ℚ} (h : x ≤ y) : roundRat x ≤ roundRat y := by
  unfold roundRat
  exact Int.toNat_le_toNat (Int.floor_le_floor (by linarith))

/-- `roundRat` is the identity on natural numbers. -/
theorem roundRat_natCast (n : Nat) : roundRat n = n := by
  unfold roundRat
  have : (⌊(n : ℚ) + 1 / 2⌋ : ℤ) = n := by
    rw [Int.floor_eq_iff]
    constructor
    · push_cast; linarith
    · push_cast; linarith
  rw [this, Int.toNat_natCast]

/-- `roundRat 256 = 256`. -/
theorem roundRat_256 : roundRat (256 : ℚ) = 256 := by
  have := roundRat_natCast 256
  norm_num at this
  exact this

/-- Aspect-ratio-preserving fit: `resize_dimensions w h 256 256` yields
dimensions that are at most 256 on both axes, at least 1 on both axes,
and exactly 256 on the binding axis. -/
theorem resize_dimensions_fit (w h : Nat) (hw : 0 < w) (hh : 0 < h) :
    (resize_dimensions w h 256 256).1 ≤ 256 ∧ (resize_dimensions w h 256 256).2 ≤ 256
    ∧ ((resize_dimensions w h 256 256).1 = 256 ∨ (resize_dimensions w h 256 256).2 = 256)
    ∧ 1 ≤ (resize_dimensions w h 256 256).1 ∧ 1 ≤ (resize_dimensions w h 256 256).2 := by
  have hw' : (0:ℚ) < w := by exact_mod_cast hw
  have hh' : (0:ℚ) < h := by exact_mod_cast hh
  rcases le_total ((256:ℚ)/w) ((256:ℚ)/h) with hmin | hmin
  · have hwr : (w:ℚ) * ((256:ℚ)/w) = 256 := by field_simp
    have hhr : (h:ℚ) * ((256:ℚ)/w) ≤ 256 := by
      calc (h:ℚ) * ((256:ℚ)/w) ≤ (h:ℚ) * ((256:ℚ)/h) :=
            mul_le_mul_of_nonneg_left hmin (le_of_lt hh')
        _ = 256 := by field_simp
    have h1 : roundRat ((w:ℚ) * ((256:ℚ)/w)) = 256 := by rw [hwr]; exact roundRat_256
    have h2 : roundRat ((h:ℚ) * ((256:ℚ)/w)) ≤ 256 :=
      le_trans (roundRat_mono hhr) (le_of_eq roundRat_256)
    unfold resize_dimensions
    simp only [Nat.cast_ofNat]
    rw [min_eq_left hmin, h1]
    rw [if_neg (by omega), if_neg (by omega)]
    exact ⟨by omega, by omega, Or.inl (by omega), by omega, by omega⟩
  · have hhr : (h:ℚ) * ((256:ℚ)/h) = 256 := by field_simp
    have hwr : (w:ℚ) * ((256:ℚ)/h) ≤ 256 := by
      calc (w:ℚ) * ((256:ℚ)/h) ≤ (w:ℚ) * ((256:ℚ)/w) :=
            mul_le_mul_of_nonneg_left hmin (le_of_lt hw')
        _ = 256 := by field_simp
    have h1 : roundRat ((h:ℚ) * ((256:ℚ)/h)) = 256 := by rw [hhr]; exact roundRat_256
    have h2 : roundRat ((w:ℚ) * ((256:ℚ)/h)) ≤ 256 :=
      le_trans (roundRat_mono hwr) (le_of_eq roundRat_256)
    unfold resize_dimensions
    simp only [Nat.cast_ofNat]
    rw [min_eq_right hmin, h1]
    rw [if_neg (by omega), if_neg (by omega)]
    exact ⟨by omega, by omega, Or.inr (by omega), by omega, by omega⟩

/-! ## Concrete test images -/

/-- An opaque black pixel. -/
def constPixel : Rgba := ⟨0, 0, 0, 255⟩

/-- A 65×1 constant image: wider than 64 pixels, so it takes the
sampling path, and its horizontal loop takes 11 samples. -/
def wideImage : RgbaImage := ⟨65, 1, fun _ _ => constPixel⟩

/-- A 1×65 constant image: taller than 64 pixels but only one pixel
wide, so the horizontal loop (over `x ∈ 1..width`) takes no samples. -/
def tallImage : RgbaImage := ⟨1, 65, fun _ _ => constPixel⟩

/-- A tiny 2×2 image with position-dependent pixels. -/
def tinyImage : RgbaImage := ⟨2, 2, fun x y => ⟨x * 97 % 256, y * 31 % 256, 5, 255⟩⟩

/-! ## Claim theorems -/

/-- C7: every image with width ≤ 64 and height ≤ 64 classifies as
`SimpleGraphics`, whatever its pixels are (the pixel function of `img`
is universally quantified and never consulted on this path). -/
theorem analyze_small_is_simple_graphics (img : RgbaImage)
    (hw : img.width ≤ 64) (hh : img.height ≤ 64) :
    analyze_image_type img = ImageType.SimpleGraphics := by
  unfold analyze_image_type
  rw [if_pos ⟨hw, hh⟩]

/-- Witness for C7 at the concrete 2×2 image. -/
theorem analyze_small_is_simple_graphics_witness :
    tinyImage.width ≤ 64 ∧ tinyImage.height ≤ 64
      ∧ analyze_image_type tinyImage = ImageType.SimpleGraphics :=
  ⟨by decide, by decide,
    analyze_small_is_simple_graphics tinyImage (by decide) (by decide)⟩

/-- C8: the PNG compression level is bucketed from the quality alone:
[0,20] → Fast, [21,60] → Default, [61,80] → Best, [81,100] → Best. -/
theorem png_compression_buckets (quality : Nat) (hq : quality ≤ 100) :
    (quality ≤ 20 → get_png_compression_level quality = CompressionType.Fast)
    ∧ (21 ≤ quality → quality ≤ 60 →
        get_png_compression_level quality = CompressionType.Default)
    ∧ (61 ≤ quality → quality ≤ 80 →
        get_png_compression_level quality = CompressionType.Best)
    ∧ (81 ≤ quality → get_png_compression_level quality = CompressionType.Best) := by
  unfold get_png_compression_level
  split_ifs with a b c <;>
    refine ⟨fun h1 => ?_, fun h1 h2 => ?_, fun h1 h2 => ?_, fun h1 => ?_⟩ <;>
    first | rfl | (exfalso; omega)

/-- Witness for C8 at quality 95 (a quality above 80 still yields
`Best`). -/
theorem png_compression_buckets_witness :
    (95 : Nat) ≤ 100 ∧ get_png_compression_level 95 = CompressionType.Best :=
  ⟨by omega, (png_compression_buckets 95 (by omega)).2.2.2 (by omega)⟩

/-- C2 counterexample: for the file `sub/image.png` under the input
directory, converting to webp with output directory `out`, the code
writes to `out/image.webp` while the claim demands `out/sub/image.webp`;
the two destinations differ, so the intermediate directory component is
not preserved. -/
theorem batch_output_path_not_mirrored :
    batch_output_path ["out"] ["sub", "image.png"] "webp" = ["out", "image.webp"]
    ∧ spec_mirrored_output_path ["out"] ["sub", "image.png"] "webp"
        = ["out", "sub", "image.webp"]
    ∧ batch_output_path ["out"] ["sub", "image.png"] "webp"
        ≠ spec_mirrored_output_path ["out"] ["sub", "image.png"] "webp" := by
  exact ⟨by decide, by decide, by decide⟩

/-- C2 amended: the destination of an eligible file in a batch run is
`outputDir` joined with the single file name `stem.targetFormat` built
from the *final* component of the relative path; all intermediate
directory components of the relative path are discarded (files from
subdirectories are flattened directly into `outputDir`). -/
theorem batch_output_path_flattens (outputDir relativePath : List String)
    (name : String) (h : relativePath.getLast? = some name) (targetFormat : String) :
    batch_output_path outputDir relativePath targetFormat
      = outputDir ++ [file_stem name ++ "." ++ targetFormat] := by
  unfold batch_output_path change_extension
  rw [h]

/-- Witness for C2's amended statement at `sub/image.png` → webp. -/
theorem batch_output_path_flattens_witness :
    (["sub", "image.png"] : List String).getLast? = some "image.png"
    ∧ batch_output_path ["out"] ["sub", "image.png"] "webp"
        = ["out"] ++ [file_stem "image.png" ++ "." ++ "webp"] :=
  ⟨rfl, batch_output_path_flattens ["out"] ["sub", "image.png"] "image.png" rfl "webp"⟩

/-- C3 counterexample: a 512×300 source is handed to the ICO encoder at
256×150 (aspect-ratio-preserving fit), not at 256×256 as claimed; a
200×150 source is encoded unresized. -/
theorem ico_resize_not_square :
    convert_to_ico_dims 512 300 = (256, 150)
    ∧ convert_to_ico_dims 512 300 ≠ (256, 256)
    ∧ convert_to_ico_dims 200 150 = (200, 150) := by
  have h : convert_to_ico_dims 512 300 = (256, 150) := by
    unfold convert_to_ico_dims
    rw [if_pos (by omega)]
    norm_num [resize_dimensions, roundRat, min_def]
    exact ⟨rfl, rfl⟩
  refine ⟨h, by rw [h]; decide, ?_⟩
  unfold convert_to_ico_dims
  rw [if_neg (by omega)]

/-- C3 amended: if either source dimension exceeds 256 the image is
resized by `resize` (aspect-ratio-preserving fit): the result fits
within 256×256 and the binding axis is exactly 256; if both dimensions
are at most 256 the image is encoded at source resolution unmodified. -/
theorem convert_to_ico_dims_spec (width height : Nat)
    (hw : 0 < width) (hh : 0 < height) :
    (¬(256 < width ∨ 256 < height) →
      convert_to_ico_dims width height = (width, height))
    ∧ ((256 < width ∨ 256 < height) →
        convert_to_ico_dims width height = resize_dimensions width height 256 256
        ∧ (convert_to_ico_dims width height).1 ≤ 256
        ∧ (convert_to_ico_dims width height).2 ≤ 256
        ∧ ((convert_to_ico_dims width height).1 = 256
            ∨ (convert_to_ico_dims width height).2 = 256)) := by
  constructor
  · intro hsmall
    unfold convert_to_ico_dims
    rw [if_neg hsmall]
  · intro hbig
    have heq : convert_to_ico_dims width height
        = resize_dimensions width height 256 256 := by
      unfold convert_to_ico_dims
      rw [if_pos hbig]
    obtain ⟨a, b, c, _, _⟩ := resize_dimensions_fit width height hw hh
    rw [heq]
    exact ⟨rfl, a, b, c⟩

/-- Witness for C3's amended statement at the 512×300 source. -/
theorem convert_to_ico_dims_spec_witness :
    (0 < 512 ∧ 0 < 300 ∧ (256 < 512 ∨ 256 < 300))
    ∧ (convert_to_ico_dims 512 300).1 ≤ 256
    ∧ (convert_to_ico_dims 512 300).2 ≤ 256 :=
  ⟨⟨by omega, by omega, by omega⟩,
    ((convert_to_ico_dims_spec 512 300 (by omega) (by omega)).2 (by omega)).2.1,
    ((convert_to_ico_dims_spec 512 300 (by omega) (by omega)).2 (by omega)).2.2.1⟩

/-- C4 counterexample: the 5-byte content `"<svg "` with the
extension-less file name `logo` is content-detected as SVG and passes
the eligibility gate, yet `convert_image` does not reject it before
decoding — the SVG gate looks only at the extension. -/
theorem svg_content_passes_svg_gate :
    detect_image_format_by_content [0x3C, 0x73, 0x76, 0x67, 0x20] = some "svg"
    ∧ is_image_file "logo" [0x3C, 0x73, 0x76, 0x67, 0x20] = true
    ∧ convert_image_pre_decode "logo" = PreDecodeStep.proceedsToDecode :=
  ⟨by decide, by decide, by decide⟩

/-- C4 amended: `convert_image` rejects an input as unsupported SVG
before decoding exactly when the input path's extension is `svg`
(case-insensitively); SVG declared only by the file *content* is not
rejected by this gate and proceeds to the decode attempt. -/
theorem svg_gate_iff_extension (fileName : String) :
    convert_image_pre_decode fileName = PreDecodeStep.rejectedSvg
      ↔ get_extension fileName = "svg" := by
  unfold convert_image_pre_decode
  have hfix : asciiLower (get_extension fileName) = get_extension fileName := by
    unfold get_extension
    cases h : extension? fileName with
    | none => rfl
    | some e => exact asciiLower_idem e
  rw [hfix]
  split_ifs with h
  · simp [h]
  · simp [h]

/-- The batch loop with no strip-prefix or directory-creation failure
accumulates exactly one `converted` per eligible entry whose conversion
succeeds and one `skipped` per eligible entry whose conversion fails. -/
theorem convertDirStep_foldlM (l : List DirEntry) (s : ConversionStats)
    (h : ∀ e ∈ l, e.isFile && e.isImageFile → e.stripPrefixOk ∧ e.ensureDirOk) :
    l.foldlM convertDirStep s = Except.ok
      { converted := s.converted
          + l.countP (fun e => e.isFile && e.isImageFile && e.convertOk),
        skipped := s.skipped
          + l.countP (fun e => e.isFile && e.isImageFile && !e.convertOk) } := by
  induction l generalizing s with
  | nil => rfl
  | cons e t ih =>
    have hht := fun x hx => h x (List.mem_cons_of_mem e hx)
    rw [List.foldlM]
    by_cases he : e.isFile && e.isImageFile
    · obtain ⟨h1, h2⟩ := h e (List.mem_cons_self e t) he
      by_cases hc : e.convertOk
      · have hstep : convertDirStep s e
            = Except.ok { s with converted := s.converted + 1 } := by
          unfold convertDirStep
          rw [if_pos he]
          simp [h1, h2, hc]
        rw [hstep]
        show t.foldlM convertDirStep { s with converted := s.converted + 1 } = _
        rw [ih _ hht]
        simp only [List.countP_cons, he, hc]
        simp only [Except.ok.injEq, ConversionStats.mk.injEq]
        refine ⟨by simp; omega, by simp⟩
      · have hstep : convertDirStep s e
            = Except.ok { s with skipped := s.skipped + 1 } := by
          unfold convertDirStep
          rw [if_pos he]
          simp [h1, h2, hc]
        rw [hstep]
        show t.foldlM convertDirStep { s with skipped := s.skipped + 1 } = _
        rw [ih _ hht]
        simp only [List.countP_cons, he, hc]
        simp only [Except.ok.injEq, ConversionStats.mk.injEq]
        refine ⟨by simp, by simp; omega⟩
    · have hstep : convertDirStep s e = Except.ok s := by
        unfold convertDirStep
        rw [if_neg he]
      rw [hstep]
      show t.foldlM convertDirStep s = _
      rw [ih _ hht]
      simp only [List.countP_cons, he]
      simp only [Except.ok.injEq, ConversionStats.mk.injEq]
      constructor <;> simp [he]

/-- C1 counterexample: a single eligible entry whose per-file
output-directory creation fails makes `convert_directory` return an
error — the failure propagates up and aborts the batch instead of being
counted as skipped; likewise for a per-file path-resolution
(strip-prefix) failure. -/
theorem per_file_error_aborts_batch :
    convert_directory true [Except.ok ⟨true, true, true, false, true⟩]
        = Except.error "DirectoryCreationFailed"
    ∧ convert_directory true [Except.ok ⟨true, true, false, true, true⟩]
        = Except.error "StripPrefixError" :=
  ⟨rfl, rfl⟩

/-- C1 amended: only `convert_image` failures are caught locally,
counted as skipped and reported; when no per-file strip-prefix or
output-directory-creation failure occurs, the batch runs to completion
with `converted`/`skipped` counting the per-entry conversion outcomes
(entries dropped by the traversal's `filter_map(Result::ok)` are
silently ignored, neither counted nor aborting). -/
theorem convert_directory_partial_failure (entries : List (Except String DirEntry))
    (h : ∀ e ∈ entries.filterMap (fun x => x.toOption),
        e.isFile && e.isImageFile → e.stripPrefixOk ∧ e.ensureDirOk) :
    convert_directory true entries = Except.ok
      { converted := (entries.filterMap (fun x => x.toOption)).countP
          (fun e => e.isFile && e.isImageFile && e.convertOk),
        skipped := (entries.filterMap (fun x => x.toOption)).countP
          (fun e => e.isFile && e.isImageFile && !e.convertOk) } := by
  unfold convert_directory
  rw [if_neg (by simp)]
  simpa using convertDirStep_foldlM _ ⟨0, 0⟩ h

/-- Witness for C1's amended statement: a batch of one succeeding
conversion, one failing conversion, one dropped traversal error and one
non-file entry reports `converted = 1, skipped = 1`. -/
theorem convert_directory_partial_failure_witness :
    convert_directory true
      [Except.ok ⟨true, true, true, true, true⟩,
       Except.ok ⟨true, true, true, true, false⟩,
       Except.error "walkdir failure",
       Except.ok ⟨false, true, true, true, true⟩]
      = Except.ok { converted := 1, skipped := 1 } :=
  (convert_directory_partial_failure
      [Except.ok ⟨true, true, true, true, true⟩,
       Except.ok ⟨true, true, true, true, false⟩,
       Except.error "walkdir failure",
       Except.ok ⟨false, true, true, true, true⟩]
      (by decide)).trans (congrArg Except.ok (by decide))

/-- On the sampling path with a non-zero sample count,
`analyze_image_type` classifies the two ratios
`horizontal_variation / sample_count` and
`vertical_variation / sample_count`. -/
theorem analyze_image_type_big_eq (img : RgbaImage)
    (hbig : ¬(img.width ≤ 64 ∧ img.height ≤ 64))
    (hcount : (horizData img).2 ≠ 0) :
    analyze_image_type img
      = classifyAverages ((horizData img).1 / (horizData img).2)
          (vertVariation img / (horizData img).2) := by
  unfold analyze_image_type classifyAverages
  rw [if_neg hbig, if_neg hcount]

/-- C5: for every image on the sampling path with at least one
horizontal sample, both classified averages share the divisor
`(horizData img).2` — the horizontal loop's sample count; the vertical
loop contributes only the numerator `vertVariation img` and keeps no
count of its own. -/
theorem analyze_image_type_shared_divisor (img : RgbaImage)
    (hbig : ¬(img.width ≤ 64 ∧ img.height ≤ 64))
    (hcount : (horizData img).2 ≠ 0) :
    analyze_image_type img
      = classifyAverages ((horizData img).1 / (horizData img).2)
          (vertVariation img / (horizData img).2) :=
  analyze_image_type_big_eq img hbig hcount

/-- Witness for C5 at the concrete 65×1 constant image (11 horizontal
samples). -/
theorem analyze_image_type_shared_divisor_witness :
    ¬(wideImage.width ≤ 64 ∧ wideImage.height ≤ 64)
    ∧ (horizData wideImage).2 ≠ 0
    ∧ analyze_image_type wideImage
        = classifyAverages ((horizData wideImage).1 / (horizData wideImage).2)
            (vertVariation wideImage / (horizData wideImage).2) :=
  ⟨by decide, by decide,
    analyze_image_type_shared_divisor wideImage (by decide) (by decide)⟩

/-- C6: on the sampling path with a non-zero sample count the rules are
evaluated in order on `aH = avg horizontal` and `aV = avg vertical`:
`aH < aV/2` → HorizontalGraphics; else `aV < aH/2` → VerticalPattern;
else both < 10 → SmoothPhoto; else both > 50 → Mixed; else
ComplexGeometry. -/
theorem analyze_image_type_rule_order (img : RgbaImage)
    (hbig : ¬(img.width ≤ 64 ∧ img.height ≤ 64))
    (hcount : (horizData img).2 ≠ 0)
    (aH aV : Nat)
    (hah : aH = (horizData img).1 / (horizData img).2)
    (hav : aV = vertVariation img / (horizData img).2) :
    (aH < aV / 2 → analyze_image_type img = ImageType.HorizontalGraphics)
    ∧ (¬aH < aV / 2 → aV < aH / 2 →
        analyze_image_type img = ImageType.VerticalPattern)
    ∧ (¬aH < aV / 2 → ¬aV < aH / 2 → aH < 10 → aV < 10 →
        analyze_image_type img = ImageType.SmoothPhoto)
    ∧ (¬aH < aV / 2 → ¬aV < aH / 2 → ¬(aH < 10 ∧ aV < 10) →
        50 < aH → 50 < aV → analyze_image_type img = ImageType.Mixed)
    ∧ (¬aH < aV / 2 → ¬aV < aH / 2 → ¬(aH < 10 ∧ aV < 10) →
        ¬(50 < aH ∧ 50 < aV) →
        analyze_image_type img = ImageType.ComplexGeometry) := by
  subst hah hav
  rw [analyze_image_type_big_eq img hbig hcount]
  unfold classifyAverages
  refine ⟨fun h1 => ?_, fun h1 h2 => ?_, fun h1 h2 h3 h4 => ?_,
    fun h1 h2 h3 h4 h5 => ?_, fun h1 h2 h3 h4 => ?_⟩
  · rw [if_pos h1]
  · rw [if_neg h1, if_pos h2]
  · rw [if_neg h1, if_neg h2, if_pos ⟨h3, h4⟩]
  · rw [if_neg h1, if_neg h2, if_neg h3, if_pos ⟨h4, h5⟩]
  · rw [if_neg h1, if_neg h2, if_neg h3, if_neg h4]

/-- Witness for C6 at the 65×1 constant image: both averages are 0, the
first two rules do not fire, and rule 3 yields `SmoothPhoto`. -/
theorem analyze_image_type_rule_order_witness :
    (horizData wideImage).1 / (horizData wideImage).2 = 0
    ∧ vertVariation wideImage / (horizData wideImage).2 = 0
    ∧ analyze_image_type wideImage = ImageType.SmoothPhoto :=
  ⟨by decide, by decide,
    (analyze_image_type_rule_order wideImage (by decide) (by decide)
        0 0 (by decide) (by decide)).2.2.1
      (by decide) (by decide) (by decide) (by decide)⟩

/-- C10: the classifier is total and guarded: the sample size is at
least 10, both axis steps are at least 1 (the `.max(1)` clamp), every
sampled pixel access — including the left/up neighbour — is within
bounds so `get_pixel_checked` returns a value, and the averaging
division is reached only behind the `sample_count = 0` check (a zero
count yields `SimpleGraphics`). -/
theorem analyze_image_type_safe (img : RgbaImage) :
    10 ≤ sampleSize img
    ∧ 1 ≤ stepX img ∧ 1 ≤ stepY img
    ∧ (∀ xy ∈ horizSamples img,
        (1 ≤ xy.1 ∧ xy.1 < img.width ∧ xy.2 < img.height)
        ∧ (get_pixel_checked img xy.1 xy.2).isSome
        ∧ (get_pixel_checked img (xy.1 - 1) xy.2).isSome)
    ∧ (∀ xy ∈ vertSamples img,
        (xy.1 < img.width ∧ 1 ≤ xy.2 ∧ xy.2 < img.height)
        ∧ (get_pixel_checked img xy.1 xy.2).isSome
        ∧ (get_pixel_checked img xy.1 (xy.2 - 1)).isSome)
    ∧ ((horizData img).2 = 0 → analyze_image_type img = ImageType.SimpleGraphics) := by
  refine ⟨le_max_right _ _, le_max_right _ _, le_max_right _ _, ?_, ?_, ?_⟩
  · intro xy hxy
    simp only [horizSamples, List.mem_flatMap, List.mem_map] at hxy
    obtain ⟨y, hy, x, hx, rfl⟩ := hxy
    have hyb := mem_stepRange (le_max_right _ _) hy
    have hxb := mem_stepRange (le_max_right _ _) hx
    refine ⟨⟨hxb.1, hxb.2, hyb.2⟩, ?_, ?_⟩
    · simp only [get_pixel_checked]
      rw [if_pos ⟨hxb.2, hyb.2⟩]
      rfl
    · simp only [get_pixel_checked]
      rw [if_pos ⟨by omega, hyb.2⟩]
      rfl
  · intro xy hxy
    simp only [vertSamples, List.mem_flatMap, List.mem_map] at hxy
    obtain ⟨y, hy, x, hx, rfl⟩ := hxy
    have hyb := mem_stepRange (le_max_right _ _) hy
    have hxb := mem_stepRange (le_max_right _ _) hx
    refine ⟨⟨hxb.2, hyb.1, hyb.2⟩, ?_, ?_⟩
    · simp only [get_pixel_checked]
      rw [if_pos ⟨hxb.2, hyb.2⟩]
      rfl
    · simp only [get_pixel_checked]
      rw [if_pos ⟨hxb.2, by omega⟩]
      rfl
  · intro hzero
    unfold analyze_image_type
    by_cases hsmall : img.width ≤ 64 ∧ img.height ≤ 64
    · rw [if_pos hsmall]
    · rw [if_neg hsmall, if_pos hzero]

/-- Witness for C10 at the 1×65 image, whose horizontal loop takes no
samples: the guarded division is skipped and the classifier returns
`SimpleGraphics`. -/
theorem analyze_image_type_safe_witness :
    (horizData tallImage).2 = 0
    ∧ analyze_image_type tallImage = ImageType.SimpleGraphics :=
  ⟨by decide, (analyze_image_type_safe tallImage).2.2.2.2.2 (by decide)⟩

/-- The read buffer always holds exactly 16 bytes. -/
theorem readBuffer_length (content : List Nat) : (readBuffer content).length = 16 := by
  simp [readBuffer, List.length_take]
  omega

/-- A successful signature scan comes from some table entry whose
signature bytes are a prefix of the buffer, with the entry's validator
deciding the result. -/
theorem scanSignatures_eq_some {buffer : List Nat} {sigs : List (List Nat × String)}
    {r : Option String} (h : scanSignatures buffer sigs = some r) :
    ∃ p ∈ sigs, p.1.isPrefixOf buffer
      ∧ r = (if p.2 = "webp" then validate_webp_signature buffer
             else if p.2 = "gif" then validate_gif_signature buffer
             else some p.2) := by
  induction sigs with
  | nil => simp [scanSignatures] at h
  | cons hd tl ih =>
    obtain ⟨sig, fmt⟩ := hd
    rw [scanSignatures] at h
    by_cases hp : sig.isPrefixOf buffer
    · rw [if_pos hp] at h
      refine ⟨(sig, fmt), List.mem_cons_self _ _, hp, ?_⟩
      exact (Option.some.injEq _ _ ▸ h).symm ▸ rfl
    · rw [if_neg hp] at h
      obtain ⟨p, hmem, hpref, hr⟩ := ih h
      exact ⟨p, List.mem_cons_of_mem _ hmem, hpref, hr⟩

/-- A buffer for RIFF-prefixed content starts with the four RIFF
bytes. -/
theorem riff_buffer_shape {content : List Nat}
    (h4 : content.take 4 = [0x52, 0x49, 0x46, 0x46]) :
    readBuffer content = 0x52 :: 0x49 :: 0x46 :: 0x46 ::
      ((content.drop 4).take 12 ++ List.replicate (16 - min content.length 16) 0) := by
  unfold readBuffer
  rw [show (16 : Nat) = 4 + 12 from rfl, List.take_add, h4]
  simp

/-- RIFF-prefixed content holds at least 4 bytes. -/
theorem take4_riff_length {content : List Nat}
    (h4 : content.take 4 = [0x52, 0x49, 0x46, 0x46]) : 4 ≤ content.length := by
  have := congrArg List.length h4
  simp [List.length_take] at this
  omega

/-- A RIFF prefix without the `"WEBP"` field at buffer bytes 8..12 makes
detection fail entirely (the scan returns from the webp entry with
`none`; no later signature and no SVG fallback is consulted). -/
theorem detect_riff_without_field (content : List Nat)
    (h4 : content.take 4 = [0x52, 0x49, 0x46, 0x46])
    (hne : ((readBuffer content).drop 8).take 4 ≠ [0x57, 0x45, 0x42, 0x50]) :
    detect_image_format_by_content content = none := by
  have hlen := take4_riff_length h4
  have hbuf := riff_buffer_shape h4
  have hscan : scanSignatures (readBuffer content) IMAGE_SIGNATURES
      = some (validate_webp_signature (readBuffer content)) := by
    rw [hbuf]
    rw [IMAGE_SIGNATURES]
    rw [scanSignatures, if_neg (by simp [List.isPrefixOf])]
    rw [scanSignatures, if_neg (by simp [List.isPrefixOf])]
    rw [scanSignatures, if_neg (by simp [List.isPrefixOf])]
    rw [scanSignatures, if_pos (by simp [List.isPrefixOf])]
    rw [if_pos rfl, ← hbuf]
  have hval : validate_webp_signature (readBuffer content) = none := by
    unfold validate_webp_signature
    rw [if_neg]
    intro hcon
    exact hne hcon.2
  simp only [detect_image_format_by_content]
  rw [if_neg (by unfold bytesRead; omega)]
  rw [hscan, hval]

/-- Conversely, a webp detection can only arise from the webp table
entry, whose validation requires both the RIFF prefix and the `"WEBP"`
field. -/
theorem detect_webp_forces_field (content : List Nat)
    (hw : detect_image_format_by_content content = some "webp") :
    content.take 4 = [0x52, 0x49, 0x46, 0x46]
    ∧ ((readBuffer content).drop 8).take 4 = [0x57, 0x45, 0x42, 0x50] := by
  simp only [detect_image_format_by_content] at hw
  by_cases hlen : bytesRead content < 4
  · rw [if_pos hlen] at hw
    exact absurd hw (by simp)
  · rw [if_neg hlen] at hw
    cases hscan : scanSignatures (readBuffer content) IMAGE_SIGNATURES with
    | none =>
      rw [hscan] at hw
      cases hd : utf8Decode (readBuffer content) with
      | none => rw [hd] at hw; simp at hw
      | some cps =>
        rw [hd] at hw
        by_cases hsvg : is_svg_content cps
        · simp [hsvg] at hw
        · simp [hsvg] at hw
    | some r =>
      rw [hscan] at hw
      subst hw
      obtain ⟨p, hmem, hpref, hr⟩ := scanSignatures_eq_some hscan
      simp only [IMAGE_SIGNATURES, List.mem_cons, List.not_mem_nil, or_false] at hmem
      have htk : ∀ s : List Nat, s.length = 4 → s.isPrefixOf (readBuffer content) →
          content.take 4 = s := by
        intro s hs hp
        have h1 := List.prefix_iff_eq_take.mp (List.isPrefixOf_iff_prefix.mp hp)
        rw [hs] at h1
        unfold readBuffer at h1
        rw [List.take_append_of_le_length
          (by simp [List.length_take]; unfold bytesRead at hlen; omega)] at h1
        rw [List.take_take] at h1
        simpa using h1.symm
      rcases hmem with h|h|h|h|h|h|h|h <;> rw [h] at hr hpref
      · exact absurd hr (by simp [validate_webp_signature, validate_gif_signature])
      · exact absurd hr (by simp [validate_webp_signature, validate_gif_signature])
      · rw [if_neg (by decide), if_pos rfl] at hr
        unfold validate_gif_signature at hr
        split at hr
        next => exact absurd hr (by simp)
        next => exact absurd hr (by simp)
      · rw [if_pos rfl] at hr
        unfold validate_webp_signature at hr
        split at hr
        next hcond => exact ⟨htk _ (by decide) hpref, hcond.2⟩
        next hcond => exact absurd hr (by simp)
      · exact absurd hr (by simp [validate_webp_signature, validate_gif_signature])
      · exact absurd hr (by simp [validate_webp_signature, validate_gif_signature])
      · exact absurd hr (by simp [validate_webp_signature, validate_gif_signature])
      · exact absurd hr (by simp [validate_webp_signature, validate_gif_signature])

/-- C9: a buffer whose first 4 bytes are `52 49 46 46` (RIFF) but whose
bytes 8–12 are not ASCII `"WEBP"` yields no match at all; and the webp
label is returned only when both the RIFF prefix and the `"WEBP"` field
are present. -/
theorem detect_requires_webp_field (content : List Nat) :
    (content.take 4 = [0x52, 0x49, 0x46, 0x46] →
      ((readBuffer content).drop 8).take 4 ≠ [0x57, 0x45, 0x42, 0x50] →
      detect_image_format_by_content content = none)
    ∧ (detect_image_format_by_content content = some "webp" →
      content.take 4 = [0x52, 0x49, 0x46, 0x46]
      ∧ ((readBuffer content).drop 8).take 4 = [0x57, 0x45, 0x42, 0x50]) :=
  ⟨detect_riff_without_field content, detect_webp_forces_field content⟩

/-- Witness for C9: the 8-byte RIFF-prefixed content
`52 49 46 46 01 02 03 04` (whose buffer bytes 8..12 are zero padding,
not `"WEBP"`) detects as no format. -/
theorem detect_requires_webp_field_witness :
    ([0x52, 0x49, 0x46, 0x46, 1, 2, 3, 4] : List Nat).take 4
        = [0x52, 0x49, 0x46, 0x46]
    ∧ ((readBuffer [0x52, 0x49, 0x46, 0x46, 1, 2, 3, 4]).drop 8).take 4
        ≠ [0x57, 0x45, 0x42, 0x50]
    ∧ detect_image_format_by_content [0x52, 0x49, 0x46, 0x46, 1, 2, 3, 4] = none :=
  ⟨by decide, by decide,
    (detect_requires_webp_field [0x52, 0x49, 0x46, 0x46, 1, 2, 3, 4]).1
      (by decide) (by decide)⟩

end PixForge
